import Mathlib

/-!
Verification of the detection/dispatch/merge core of `mastodon_sim`
(`src/mastodon_sim/concordia/components/triggering.py`,
`SceneTriggeringComponent`).

The component is embedded shallowly as pure state-passing functions.
External collaborators (the language model, the phone-scene runtime, the
clock's gear scope, `BasicAgent.observe`, `AssociativeMemory.add`, the
`apps.Phone` object) are not part of the sampled source; they are modelled
from the spec's interface contracts as oracle functions in `Env` and as
explicit fields of `SimState`.  Every call that touches shared state or an
external collaborator is additionally recorded in an effect trace, so that
ordering and frame properties are statements about the trace.
-/

/-- Clock gear: the two-valued mode of the shared simulation clock
(spec section 3, "Clock Gear"). -/
inductive Gear where
  | normal
  | accelerated
deriving DecidableEq, Repr

/-- Modelled from the spec: a `basic_agent.BasicAgent` as this core sees it —
a stable `name` and a private ordered log extended by `observe`
(the agent runtime itself is an external collaborator). -/
structure Player where
  name : String
  log : List String
deriving DecidableEq, Repr

/-- Modelled from the spec: an `apps.Phone` as this core sees it — a
registered `player_name` and a `description()` string (the device simulation
is an external collaborator; `apps.py` is not in the sampled source). -/
structure Phone where
  player_name : String
  description : String
deriving DecidableEq, Repr

/-- A failure escaping the component: the `StopIteration` raised by
`next(...)` in `_get_phone` when no phone matches, or a failure raised
inside the nested phone scene's `run_episode`. -/
inductive Err where
  | phoneNotFound (player_name : String)
  | episodeFailure
deriving DecidableEq, Repr

/-- One observable interaction with shared state or a collaborator, in the
order the Python code performs them. -/
inductive Effect where
  | askClassifier (event_statement : String) (answer : Bool)
  | askResolver (event_statement : String) (player_name : String) (answer : Bool)
  | buildScene (player_name : String)
  | setGear (g : Gear)
  | runEpisode (player_name : String)
  | observe (player_name : String) (event : String)
  | memAdd (event : String)
deriving DecidableEq, Repr

/-- The component's construction-time dependencies (`__init__`): the phone
registry, and oracles standing for the external collaborators — the language
model's answer to the `_is_phone_event` question, its answer to the per-player
`_get_player_from_event` question, and the phone scene's `run_episode`
outcome for a given player (`Except.error` models a failure raised partway,
after which no output list is returned). -/
structure Env where
  phones : List Phone
  isPhoneEventAnswer : String → Bool
  playerUsingAnswer : String → String → Bool
  episodeResult : String → Except Unit (List String)

/-- The mutable shared state the component can reach: the players (each with
its private log), the shared associative memory (append-only), and the
clock's gear. -/
structure SimState where
  players : List Player
  memory : List String
  gear : Gear
deriving DecidableEq, Repr

/-- `SceneTriggeringComponent._is_phone_event`: seeds a fresh document with
the event statement and returns the model's yes/no answer verbatim. -/
def _is_phone_event (env : Env) (event_statement : String) : Bool :=
  env.isPhoneEventAnswer event_statement

/-- `SceneTriggeringComponent._get_player_from_event`: iterates the players
in roster order, asks the per-player yes/no question against a copy of the
shared document, and returns the first player answered `true`; `none` when
no player matches.  The trace records each question actually asked. -/
def _get_player_from_event (env : Env) (event_statement : String) :
    List Player → Option Player × List Effect
  | [] => (none, [])
  | player :: rest =>
    if env.playerUsingAnswer event_statement player.name then
      (some player, [Effect.askResolver event_statement player.name true])
    else
      let r := _get_player_from_event env event_statement rest
      (r.1, Effect.askResolver event_statement player.name false :: r.2)

/-- `SceneTriggeringComponent._get_phone`:
`next(p for p in self._phones if p.player_name == player_name)` — the first
phone whose registered name equals the player's name, `StopIteration`
(modelled as `Err.phoneNotFound`) when none matches. -/
def _get_phone (env : Env) (player_name : String) : Except Err Phone :=
  match env.phones.find? (fun p => p.player_name == player_name) with
  | some p => Except.ok p
  | none => Except.error (Err.phoneNotFound player_name)

/-- `SceneTriggeringComponent._get_player_using_phone`: classifier first,
then (only on a positive answer) the resolver. -/
def _get_player_using_phone (env : Env) (players : List Player)
    (event_statement : String) : Option Player × List Effect :=
  if _is_phone_event env event_statement then
    let r := _get_player_from_event env event_statement players
    (r.1, Effect.askClassifier event_statement true :: r.2)
  else
    (none, [Effect.askClassifier event_statement false])

/-- Modelled from the spec: `BasicAgent.observe` appends the event to the
named player's private log ("append to its log"); players other than the
named one are untouched. -/
def observePlayer : List Player → String → String → List Player
  | [], _, _ => []
  | p :: ps, player_name, event =>
    if p.name == player_name then { p with log := p.log ++ [event] } :: ps
    else p :: observePlayer ps player_name event

/-- The merge loop of `_run_phone_scene` (`for event in scene_output:`):
for each event in order, `player.observe(event)` then
`self._memory.add(event)`, both completed before the next event. -/
def mergeEvents (player_name : String) :
    List String → SimState → SimState × List Effect
  | [], st => (st, [])
  | e :: es, st =>
    let st1 : SimState := { st with players := observePlayer st.players player_name e }
    let st2 : SimState := { st1 with memory := st1.memory ++ [e] }
    let r := mergeEvents player_name es st2
    (r.1, Effect.observe player_name e :: Effect.memAdd e :: r.2)

/-- The trace the merge loop produces for a given output list: observe then
memory-add per event, in production order. -/
def mergeTrace (player_name : String) : List String → List Effect
  | [] => []
  | e :: es =>
    Effect.observe player_name e :: Effect.memAdd e :: mergeTrace player_name es

/-- `SceneTriggeringComponent._run_phone_scene`: look up the phone (a miss
raises before anything else happens), build the scene, enter the accelerated
gear scope (`with self._clock.higher_gear():`), run the episode, and merge
its output.  Modelled from the spec: the gear scope "unconditionally restores
the normal gear on exit, including on failure" (the clock is an external
collaborator), so on both the success path and the failure path the state's
gear is back to `Gear.normal` before `run_episode`'s result propagates. -/
def _run_phone_scene (env : Env) (st : SimState) (player : Player) :
    Except Err (List String) × SimState × List Effect :=
  match _get_phone env player.name with
  | Except.error e => (Except.error e, st, [])
  | Except.ok _ =>
    let trScene : List Effect :=
      [Effect.buildScene player.name, Effect.setGear Gear.accelerated,
       Effect.runEpisode player.name, Effect.setGear Gear.normal]
    match env.episodeResult player.name with
    | Except.error _ =>
        (Except.error Err.episodeFailure, { st with gear := Gear.normal }, trScene)
    | Except.ok events =>
        let r := mergeEvents player.name events { st with gear := Gear.normal }
        (Except.ok events, r.1, trScene ++ r.2)

/-- `SceneTriggeringComponent.update_after_event` (the public `handle`):
classify and resolve, then — only when a player resolved — run the phone
scene; failures raised inside propagate to the caller. -/
def update_after_event (env : Env) (st : SimState) (event_statement : String) :
    Except Err Unit × SimState × List Effect :=
  let r := _get_player_using_phone env st.players event_statement
  match r.1 with
  | none => (Except.ok (), st, r.2)
  | some player =>
    let s := _run_phone_scene env st player
    match s.1 with
    | Except.ok _ => (Except.ok (), s.2.1, r.2 ++ s.2.2)
    | Except.error e => (Except.error e, s.2.1, r.2 ++ s.2.2)

/-- `SceneTriggeringComponent.partial_state`: returns
`self._get_phone(player_name).description()`; it reads the registry only,
so the state is untouched and the trace empty. -/
def partial_state (env : Env) (st : SimState) (player_name : String) :
    Except Err String × SimState × List Effect :=
  match _get_phone env player_name with
  | Except.ok phone => (Except.ok phone.description, st, [])
  | Except.error e => (Except.error e, st, [])

/-- Effects that mutate an actor log or shared memory. -/
def Effect.isMutation : Effect → Bool
  | Effect.observe _ _ => true
  | Effect.memAdd _ => true
  | _ => false

/-- Effects that construct a sub-episode. -/
def Effect.isBuildScene : Effect → Bool
  | Effect.buildScene _ => true
  | _ => false

/-- Effects that ask the per-player resolver question. -/
def Effect.isAskResolver : Effect → Bool
  | Effect.askResolver _ _ _ => true
  | _ => false

/-- Effects that change the clock gear. -/
def Effect.isSetGear : Effect → Bool
  | Effect.setGear _ => true
  | _ => false

/-- The private log of the (first) player with the given name, if any. -/
def logOf (ps : List Player) (player_name : String) : Option (List String) :=
  (ps.find? (fun p => p.name == player_name)).map Player.log

/-- Walks a trace tracking the gear announced by `setGear` effects and
checks that every mutation effect happens while the tracked gear is
`Gear.normal`. -/
def mutationsInNormalGear (g : Gear) : List Effect → Bool
  | [] => true
  | Effect.setGear g2 :: tr => mutationsInNormalGear g2 tr
  | Effect.observe _ _ :: tr => g == Gear.normal && mutationsInNormalGear g tr
  | Effect.memAdd _ :: tr => g == Gear.normal && mutationsInNormalGear g tr
  | Effect.askClassifier _ _ :: tr => mutationsInNormalGear g tr
  | Effect.askResolver _ _ _ :: tr => mutationsInNormalGear g tr
  | Effect.buildScene _ :: tr => mutationsInNormalGear g tr
  | Effect.runEpisode _ :: tr => mutationsInNormalGear g tr

theorem mergeEvents_memory (player_name : String) (events : List String)
    (st : SimState) :
    (mergeEvents player_name events st).1.memory = st.memory ++ events := by
  induction events generalizing st with
  | nil => simp [mergeEvents]
  | cons e es ih => simp [mergeEvents, ih]

theorem mergeEvents_gear (player_name : String) (events : List String)
    (st : SimState) :
    (mergeEvents player_name events st).1.gear = st.gear := by
  induction events generalizing st with
  | nil => rfl
  | cons e es ih => simp [mergeEvents, ih]

theorem observePlayer_logOf (ps : List Player) (player_name event : String) :
    logOf (observePlayer ps player_name event) player_name
      = (logOf ps player_name).map (fun l => l ++ [event]) := by
  induction ps with
  | nil => simp [observePlayer, logOf]
  | cons p ps ih =>
    cases h : p.name == player_name with
    | true =>
      simp [observePlayer, logOf, h, List.find?_cons_of_pos]
    | false =>
      simpa [observePlayer, logOf, h, List.find?_cons_of_neg] using ih

theorem mergeEvents_logOf (player_name : String) (events : List String)
    (st : SimState) :
    logOf (mergeEvents player_name events st).1.players player_name
      = (logOf st.players player_name).map (fun l => l ++ events) := by
  induction events generalizing st with
  | nil => simp [mergeEvents]
  | cons e es ih =>
    simp only [mergeEvents, ih, observePlayer_logOf]
    cases logOf st.players player_name <;> simp

theorem mergeEvents_trace (player_name : String) (events : List String)
    (st : SimState) :
    (mergeEvents player_name events st).2 = mergeTrace player_name events := by
  induction events generalizing st with
  | nil => rfl
  | cons e es ih => simp [mergeEvents, mergeTrace, ih]

theorem getPlayerFromEvent_fst (env : Env) (ev : String) (players : List Player) :
    (_get_player_from_event env ev players).1
      = players.find? (fun p => env.playerUsingAnswer ev p.name) := by
  induction players with
  | nil => rfl
  | cons p ps ih =>
    cases h : env.playerUsingAnswer ev p.name with
    | true => simp [_get_player_from_event, h, List.find?_cons_of_pos]
    | false => simp [_get_player_from_event, h, List.find?_cons_of_neg, ih]

theorem getPlayerFromEvent_trace (env : Env) (ev : String) (players : List Player) :
    (_get_player_from_event env ev players).2
      = (players.takeWhile (fun p => !env.playerUsingAnswer ev p.name)).map
          (fun p => Effect.askResolver ev p.name false)
        ++ (match players.find? (fun p => env.playerUsingAnswer ev p.name) with
            | some p => [Effect.askResolver ev p.name true]
            | none => []) := by
  induction players with
  | nil => rfl
  | cons p ps ih =>
    cases h : env.playerUsingAnswer ev p.name with
    | true =>
      simp [_get_player_from_event, h, List.takeWhile_cons, List.find?_cons_of_pos]
    | false =>
      simp [_get_player_from_event, h, List.takeWhile_cons, List.find?_cons_of_neg, ih]

theorem getPlayerFromEvent_trace_asks (env : Env) (ev : String)
    (players : List Player) :
    ((_get_player_from_event env ev players).2.all Effect.isAskResolver) = true := by
  induction players with
  | nil => rfl
  | cons p ps ih =>
    cases h : env.playerUsingAnswer ev p.name <;>
      simp [_get_player_from_event, h, Effect.isAskResolver, ih]

theorem asks_not_mutation (tr : List Effect)
    (h : tr.all Effect.isAskResolver = true) :
    tr.all (fun e => !e.isMutation && !e.isBuildScene) = true := by
  rw [List.all_eq_true] at h ⊢
  intro e he
  have hh := h e he
  cases e <;> simp_all [Effect.isAskResolver, Effect.isMutation, Effect.isBuildScene]

/-- Concrete phone registry used by the witness instances. -/
def wPhones : List Phone :=
  [⟨"Alice", "Alice's phone state"⟩, ⟨"Bob", "Bob's phone state"⟩]

/-- Concrete roster used by the witness instances. -/
def wPlayers : List Player := [⟨"Alice", ["a0"]⟩, ⟨"Bob", []⟩]

/-- Concrete starting state used by the witness instances. -/
def wState : SimState := ⟨wPlayers, ["old"], Gear.normal⟩

/-- Environment whose classifier answers yes, whose resolver matches Alice,
and whose episode completes with two events. -/
def wEnvOk : Env :=
  ⟨wPhones, fun _ => true, fun _ nm => nm == "Alice",
   fun _ => Except.ok ["e1", "e2"]⟩

/-- Environment whose episode raises partway. -/
def wEnvFail : Env :=
  ⟨wPhones, fun _ => true, fun _ nm => nm == "Alice", fun _ => Except.error ()⟩

/-- Environment whose classifier answers no. -/
def wEnvNo : Env :=
  ⟨wPhones, fun _ => false, fun _ _ => false, fun _ => Except.ok []⟩

/-- Environment whose classifier answers yes but no player is resolved. -/
def wEnvNone : Env :=
  ⟨wPhones, fun _ => true, fun _ _ => false, fun _ => Except.ok ["x"]⟩

/-- C3: when the classifier (`_is_phone_event`) answers false,
`update_after_event` returns with the state unchanged — no actor-log
mutation, no shared-memory append — and its trace holds nothing but the one
classifier question: no resolver question was asked and no sub-episode was
constructed. -/
theorem classifier_false_no_side_effects (env : Env) (st : SimState)
    (ev : String) (h : env.isPhoneEventAnswer ev = false) :
    update_after_event env st ev
      = (Except.ok (), st, [Effect.askClassifier ev false]) := by
  simp [update_after_event, _get_player_using_phone, _is_phone_event, h]

/-- C3 witness: the classifier-false theorem applied at a concrete
environment and state. -/
theorem classifier_false_no_side_effects_witness :
    update_after_event wEnvNo wState "Bob watered the garden"
      = (Except.ok (), wState,
         [Effect.askClassifier "Bob watered the garden" false]) :=
  classifier_false_no_side_effects wEnvNo wState "Bob watered the garden" rfl

/-- C9: with an empty roster, `_get_player_from_event` asks no per-player
question and returns `none`, so `update_after_event` — even on a statement
the classifier answers true for — returns with the state unchanged and a
trace holding nothing but the classifier question. -/
theorem empty_roster_no_side_effects (env : Env) (st : SimState) (ev : String)
    (h : st.players = []) :
    update_after_event env st ev
      = (Except.ok (), st,
         [Effect.askClassifier ev (env.isPhoneEventAnswer ev)]) := by
  cases hc : env.isPhoneEventAnswer ev <;>
    simp [update_after_event, _get_player_using_phone, _is_phone_event,
      _get_player_from_event, h, hc]

/-- C9 witness: the empty-roster theorem applied at a concrete environment
whose classifier answers true. -/
theorem empty_roster_no_side_effects_witness :
    update_after_event wEnvOk ⟨[], ["old"], Gear.normal⟩ "Alice texted"
      = (Except.ok (), ⟨[], ["old"], Gear.normal⟩,
         [Effect.askClassifier "Alice texted"
            (wEnvOk.isPhoneEventAnswer "Alice texted")]) :=
  empty_roster_no_side_effects wEnvOk ⟨[], ["old"], Gear.normal⟩ "Alice texted" rfl

/-- C5: `_get_player_from_event` returns the first player in roster order
whose per-player answer is true (`List.find?`), and its trace shows it asked
exactly the players before that one (each answered false) and the match
itself — no player after the first match is ever asked, and no conflict
signal exists; when no player answers true it returns `none` having asked
everyone. -/
theorem resolver_first_match_short_circuit (env : Env) (ev : String)
    (players : List Player) :
    (_get_player_from_event env ev players).1
        = players.find? (fun p => env.playerUsingAnswer ev p.name)
    ∧ (_get_player_from_event env ev players).2
        = (players.takeWhile (fun p => !env.playerUsingAnswer ev p.name)).map
            (fun p => Effect.askResolver ev p.name false)
          ++ (match players.find? (fun p => env.playerUsingAnswer ev p.name) with
              | some p => [Effect.askResolver ev p.name true]
              | none => []) :=
  ⟨getPlayerFromEvent_fst env ev players, getPlayerFromEvent_trace env ev players⟩

/-- C6: `_get_phone` returns a phone only if it is a registered phone whose
`player_name` equals the looked-up name exactly, and when no registered
phone matches it raises (`Err.phoneNotFound`) instead of returning any
default. -/
theorem get_phone_exact_match_or_raises (env : Env) (player_name : String) :
    (∀ ph, _get_phone env player_name = Except.ok ph →
        ph ∈ env.phones ∧ ph.player_name = player_name)
    ∧ ((∀ ph ∈ env.phones, ph.player_name ≠ player_name) →
        _get_phone env player_name
          = Except.error (Err.phoneNotFound player_name)) := by
  constructor
  · intro ph hph
    unfold _get_phone at hph
    cases hfind : env.phones.find? (fun p => p.player_name == player_name) with
    | none => rw [hfind] at hph; exact absurd hph (by simp)
    | some q =>
      rw [hfind] at hph
      simp only [Except.ok.injEq] at hph
      subst hph
      refine ⟨List.mem_of_find?_eq_some hfind, ?_⟩
      simpa using List.find?_some hfind
  · intro hall
    unfold _get_phone
    have hnone : env.phones.find? (fun p => p.player_name == player_name) = none := by
      rw [List.find?_eq_none]
      intro ph hm
      simpa using hall ph hm
    rw [hnone]

/-- C6 witness: the exact-match theorem applied at the concrete registry —
Alice's lookup yields the registered phone with her exact name, and a lookup
for an unprovisioned name raises. -/
theorem get_phone_exact_match_or_raises_witness :
    ((Phone.mk "Alice" "Alice's phone state") ∈ wEnvOk.phones
      ∧ (Phone.mk "Alice" "Alice's phone state").player_name = "Alice")
    ∧ _get_phone wEnvOk "Zed" = Except.error (Err.phoneNotFound "Zed") :=
  ⟨(get_phone_exact_match_or_raises wEnvOk "Alice").1
      (Phone.mk "Alice" "Alice's phone state") rfl,
   (get_phone_exact_match_or_raises wEnvOk "Zed").2 (by decide)⟩

theorem runPhoneScene_gear (env : Env) (st : SimState) (player : Player)
    (h : st.gear = Gear.normal) :
    (_run_phone_scene env st player).2.1.gear = Gear.normal := by
  unfold _run_phone_scene
  cases hph : _get_phone env player.name with
  | error e => simpa using h
  | ok ph =>
    cases hep : env.episodeResult player.name with
    | error u => simp
    | ok events => simp [mergeEvents_gear]

/-- C1: every call of `update_after_event` that starts in the normal gear
ends in the gear it started in, whether it returns normally or propagates a
failure (a missing phone, or the nested episode raising partway): the
accelerated gear entered around `run_episode` is restored to normal on every
exit path. -/
theorem gear_restored_after_handle (env : Env) (st : SimState) (ev : String)
    (h : st.gear = Gear.normal) :
    (update_after_event env st ev).2.1.gear = st.gear := by
  unfold update_after_event
  cases hr : (_get_player_using_phone env st.players ev).1 with
  | none => simp [hr]
  | some player =>
    have hg := runPhoneScene_gear env st player h
    cases hs : (_run_phone_scene env st player).1 with
    | error e => simp [hr, hs, h, ← hg]
    | ok events => simp [hr, hs, h, ← hg]

/-- C1 witness: the gear-restoration theorem applied at an environment whose
nested episode raises partway; the gear is still normal afterwards. -/
theorem gear_restored_after_handle_witness :
    (update_after_event wEnvFail wState "Alice texted").2.1.gear = wState.gear :=
  gear_restored_after_handle wEnvFail wState "Alice texted" rfl

/-- C2: the merge loop walks the sub-episode output in production order,
for each event observing it to the player and then appending it to shared
memory before touching the next event (the trace is exactly
`mergeTrace`: observe `e1`, add `e1`, observe `e2`, add `e2`, ...);
afterwards the player's private log is its old log extended by exactly the
output list, and shared memory's newly appended suffix is exactly the output
list, both in production order. -/
theorem merge_order_property (player_name : String) (events : List String)
    (st : SimState) (l : List String)
    (h : logOf st.players player_name = some l) :
    logOf (mergeEvents player_name events st).1.players player_name
        = some (l ++ events)
    ∧ (mergeEvents player_name events st).1.memory = st.memory ++ events
    ∧ (mergeEvents player_name events st).2 = mergeTrace player_name events := by
  refine ⟨?_, mergeEvents_memory player_name events st,
    mergeEvents_trace player_name events st⟩
  rw [mergeEvents_logOf, h]
  rfl

/-- C2 witness: the merge-order theorem applied at a concrete state for the
output `["e1", "e2"]`. -/
theorem merge_order_property_witness :
    logOf (mergeEvents "Alice" ["e1", "e2"] wState).1.players "Alice"
        = some (["a0"] ++ ["e1", "e2"])
    ∧ (mergeEvents "Alice" ["e1", "e2"] wState).1.memory
        = wState.memory ++ ["e1", "e2"]
    ∧ (mergeEvents "Alice" ["e1", "e2"] wState).2 = mergeTrace "Alice" ["e1", "e2"] :=
  merge_order_property "Alice" ["e1", "e2"] wState ["a0"] rfl

/-- C8: `partial_state` leaves the state untouched and produces no effect at
all (no observe, no memory append, no gear change, no classifier or resolver
question, no scene construction); it returns the description of the
registered phone matching the name, and raises when no phone matches. -/
theorem partial_state_pure_lookup (env : Env) (st : SimState)
    (player_name : String) :
    (partial_state env st player_name).2.1 = st
    ∧ (partial_state env st player_name).2.2 = []
    ∧ (∀ ph, env.phones.find? (fun p => p.player_name == player_name) = some ph →
        (partial_state env st player_name).1 = Except.ok ph.description)
    ∧ ((∀ ph ∈ env.phones, ph.player_name ≠ player_name) →
        (partial_state env st player_name).1
          = Except.error (Err.phoneNotFound player_name)) := by
  refine ⟨?_, ?_, ?_, ?_⟩
  · unfold partial_state
    cases _get_phone env player_name <;> simp
  · unfold partial_state
    cases _get_phone env player_name <;> simp
  · intro ph hph
    simp [partial_state, _get_phone, hph]
  · intro hall
    have hnone : env.phones.find? (fun p => p.player_name == player_name) = none := by
      rw [List.find?_eq_none]
      intro ph hm
      simpa using hall ph hm
    simp [partial_state, _get_phone, hnone]

/-- C8 witness: the pure-lookup theorem applied at the concrete registry —
Bob's partial state is his phone's description and the state is unchanged;
the error clause is exercised at an unprovisioned name. -/
theorem partial_state_pure_lookup_witness :
    ((partial_state wEnvOk wState "Bob").2.1 = wState
      ∧ (partial_state wEnvOk wState "Bob").1 = Except.ok "Bob's phone state")
    ∧ (partial_state wEnvOk wState "Zed").1 = Except.error (Err.phoneNotFound "Zed") :=
  ⟨⟨(partial_state_pure_lookup wEnvOk wState "Bob").1,
    (partial_state_pure_lookup wEnvOk wState "Bob").2.2.1
      (Phone.mk "Bob" "Bob's phone state") (by decide)⟩,
   (partial_state_pure_lookup wEnvOk wState "Zed").2.2.2 (by decide)⟩

theorem effectAll_weaken (tr : List Effect) (p q : Effect → Bool)
    (hpq : ∀ e, p e = true → q e = true) (h : tr.all p = true) :
    tr.all q = true := by
  rw [List.all_eq_true] at h ⊢
  exact fun e he => hpq e (h e he)

theorem ask_effects_non_interfering (e : Effect) (h : e.isAskResolver = true) :
    (!e.isMutation && !e.isBuildScene && !e.isSetGear) = true := by
  cases e <;> simp_all [Effect.isAskResolver, Effect.isMutation,
    Effect.isBuildScene, Effect.isSetGear]

theorem getPlayerUsingPhone_trace_asks_only (env : Env) (players : List Player)
    (ev : String) :
    ((_get_player_using_phone env players ev).2.all
      (fun e => !e.isMutation && !e.isBuildScene && !e.isSetGear)) = true := by
  unfold _get_player_using_phone
  cases h : _is_phone_event env ev with
  | false =>
    simp [Effect.isMutation, Effect.isBuildScene, Effect.isSetGear]
  | true =>
    simp only [if_true, List.all_cons, Bool.and_eq_true]
    refine ⟨⟨⟨rfl, rfl⟩, rfl⟩, ?_⟩
    exact effectAll_weaken _ _ _ ask_effects_non_interfering
      (getPlayerFromEvent_trace_asks env ev players)

theorem mutationsInNormalGear_append_neutral (g : Gear) (tr1 tr2 : List Effect)
    (h : tr1.all (fun e => !e.isMutation && !e.isSetGear) = true) :
    mutationsInNormalGear g (tr1 ++ tr2) = mutationsInNormalGear g tr2 := by
  induction tr1 with
  | nil => rfl
  | cons e tr ih =>
    simp only [List.all_cons, Bool.and_eq_true] at h
    obtain ⟨h1, h2⟩ := h
    cases e with
    | setGear g2 => simp [Effect.isSetGear] at h1
    | observe a b => simp [Effect.isMutation] at h1
    | memAdd a => simp [Effect.isMutation] at h1
    | askClassifier a b =>
      simp only [List.cons_append, mutationsInNormalGear]; exact ih h2
    | askResolver a b c =>
      simp only [List.cons_append, mutationsInNormalGear]; exact ih h2
    | buildScene a =>
      simp only [List.cons_append, mutationsInNormalGear]; exact ih h2
    | runEpisode a =>
      simp only [List.cons_append, mutationsInNormalGear]; exact ih h2

theorem mergeTrace_normalGear (player_name : String) (events : List String) :
    mutationsInNormalGear Gear.normal (mergeTrace player_name events) = true := by
  induction events with
  | nil => rfl
  | cons e es ih => simp [mergeTrace, mutationsInNormalGear, ih]

theorem runPhoneScene_trace_normalGear (env : Env) (st : SimState)
    (player : Player) (g : Gear) :
    mutationsInNormalGear g (_run_phone_scene env st player).2.2 = true := by
  unfold _run_phone_scene
  cases hph : _get_phone env player.name with
  | error e => rfl
  | ok ph =>
    cases hep : env.episodeResult player.name with
    | error u => simp [mutationsInNormalGear]
    | ok events =>
      simp only [List.cons_append, List.nil_append, mutationsInNormalGear,
        mergeEvents_trace]
      exact mergeTrace_normalGear player.name events

theorem runPhoneScene_error_frame (env : Env) (st : SimState) (player : Player)
    (err : Err) (h : (_run_phone_scene env st player).1 = Except.error err) :
    (_run_phone_scene env st player).2.1.players = st.players
    ∧ (_run_phone_scene env st player).2.1.memory = st.memory
    ∧ (_run_phone_scene env st player).2.2.all (fun e => !e.isMutation) = true := by
  unfold _run_phone_scene at h ⊢
  cases hph : _get_phone env player.name with
  | error e => simp [hph, Effect.isMutation]
  | ok ph =>
    cases hep : env.episodeResult player.name with
    | error u => simp [hph, hep, Effect.isMutation]
    | ok events => rw [hph, hep] at h; simp at h

/-- C4: when the classifier answers true but no player in the roster answers
the per-player question true, `update_after_event` returns with the state
unchanged — zero actor-log mutations, zero shared-memory appends — and its
trace is the classifier question followed only by resolver questions: no
sub-episode is constructed. -/
theorem resolver_none_no_side_effects (env : Env) (st : SimState) (ev : String)
    (hc : env.isPhoneEventAnswer ev = true)
    (hr : (_get_player_from_event env ev st.players).1 = none) :
    update_after_event env st ev
      = (Except.ok (), st,
         Effect.askClassifier ev true
           :: (_get_player_from_event env ev st.players).2)
    ∧ ((_get_player_from_event env ev st.players).2.all
        (fun e => !e.isMutation && !e.isBuildScene)) = true := by
  constructor
  · simp [update_after_event, _get_player_using_phone, _is_phone_event, hc, hr]
  · exact asks_not_mutation _ (getPlayerFromEvent_trace_asks env ev st.players)

/-- C4 witness: the resolver-none theorem applied at an environment whose
classifier answers true and whose per-player answers are all false. -/
theorem resolver_none_no_side_effects_witness :
    update_after_event wEnvNone wState "Alice texted"
      = (Except.ok (), wState,
         Effect.askClassifier "Alice texted" true
           :: (_get_player_from_event wEnvNone "Alice texted" wState.players).2)
    ∧ ((_get_player_from_event wEnvNone "Alice texted" wState.players).2.all
        (fun e => !e.isMutation && !e.isBuildScene)) = true :=
  resolver_none_no_side_effects wEnvNone wState "Alice texted" rfl rfl

/-- C7: the merge is all-or-nothing relative to the sub-episode's
completion — whenever `update_after_event` propagates a failure (so the
nested episode did not run to completion and return its full output, or the
phone lookup raised before it), the players' logs and shared memory are
exactly as before the call and the trace holds no observe and no
memory-append effect. -/
theorem merge_all_or_nothing_on_failure (env : Env) (st : SimState)
    (ev : String) (err : Err)
    (h : (update_after_event env st ev).1 = Except.error err) :
    (update_after_event env st ev).2.1.players = st.players
    ∧ (update_after_event env st ev).2.1.memory = st.memory
    ∧ (update_after_event env st ev).2.2.all (fun e => !e.isMutation) = true := by
  unfold update_after_event at h ⊢
  cases hr : (_get_player_using_phone env st.players ev).1 with
  | none => simp [hr] at h
  | some player =>
    cases hs : (_run_phone_scene env st player).1 with
    | ok events => simp [hr, hs] at h
    | error e =>
      obtain ⟨f1, f2, f3⟩ := runPhoneScene_error_frame env st player e hs
      have hcls : ((_get_player_using_phone env st.players ev).2.all
          (fun e => !e.isMutation)) = true := by
        refine effectAll_weaken _ _ _ ?_
          (getPlayerUsingPhone_trace_asks_only env st.players ev)
        intro x hx
        cases x <;> simp_all [Effect.isMutation, Effect.isBuildScene,
          Effect.isSetGear]
      simp only [hr, hs]
      refine ⟨f1, f2, ?_⟩
      rw [List.all_append, Bool.and_eq_true]
      exact ⟨hcls, f3⟩

/-- C7 witness: the all-or-nothing theorem applied at an environment whose
nested episode raises partway; the logs and memory are untouched. -/
theorem merge_all_or_nothing_on_failure_witness :
    (update_after_event wEnvFail wState "Alice texted").2.1.players = wState.players
    ∧ (update_after_event wEnvFail wState "Alice texted").2.1.memory = wState.memory
    ∧ (update_after_event wEnvFail wState "Alice texted").2.2.all
        (fun e => !e.isMutation) = true :=
  merge_all_or_nothing_on_failure wEnvFail wState "Alice texted"
    Err.episodeFailure rfl

/-- C10: walking the trace of any `update_after_event` call while tracking
the gear announced by the `setGear` effects, every observe and every
shared-memory append happens with the tracked gear at `Gear.normal`: the
accelerated gear entered around `run_episode` is exited before the first
merge side effect, whatever gear the call started in. -/
theorem mutations_only_in_normal_gear (env : Env) (st : SimState)
    (ev : String) :
    mutationsInNormalGear st.gear (update_after_event env st ev).2.2 = true := by
  have hcls : ((_get_player_using_phone env st.players ev).2.all
      (fun e => !e.isMutation && !e.isSetGear)) = true := by
    refine effectAll_weaken _ _ _ ?_ (getPlayerUsingPhone_trace_asks_only env st.players ev)
    intro x hx
    cases x <;> simp_all [Effect.isMutation, Effect.isBuildScene, Effect.isSetGear]
  unfold update_after_event
  cases hr : (_get_player_using_phone env st.players ev).1 with
  | none =>
    simp only [hr]
    rw [← List.append_nil ((_get_player_using_phone env st.players ev).2),
      mutationsInNormalGear_append_neutral st.gear _ _ hcls]
    rfl
  | some player =>
    cases hs : (_run_phone_scene env st player).1 with
    | ok events =>
      simp only [hr, hs]
      rw [mutationsInNormalGear_append_neutral st.gear _ _ hcls]
      exact runPhoneScene_trace_normalGear env st player st.gear
    | error e =>
      simp only [hr, hs]
      rw [mutationsInNormalGear_append_neutral st.gear _ _ hcls]
      exact runPhoneScene_trace_normalGear env st player st.gear
